import Mathlib

/-!
# Verification of the junzi-tts acquisition-and-alignment core

Shallow embedding of the corpus-acquisition core of the repository:

* `src/split_mengzi.py`  — sentence splitting and `align_passages`
* `src/scrape_ctp.py`    — `CTEXTParser`, `fetch_chapter`, `save_output`, `main` resume loop
* `src/validate_translations.py` — `is_bad_translation` and the chapter flagging rule

Python strings are modelled as Lean `String`, machine integers as `Nat`
(all the counters involved are non-negative), fallible operations as
`Except`/`Option`.  Each definition mirrors one Python function and is
named after it.
-/

namespace Junzi

/-! ## String helpers mirroring Python primitives -/

/-- One step of Python's `str.strip()` on a character list: drop leading
whitespace. -/
def trimLeftList (l : List Char) : List Char :=
  l.dropWhile Char.isWhitespace

/-- Python's `str.strip()` on a character list: drop leading and trailing
whitespace. -/
def trimList (l : List Char) : List Char :=
  ((trimLeftList l).reverse.dropWhile Char.isWhitespace).reverse

/-- Python's `str.strip()`. -/
def pyStrip (s : String) : String :=
  (trimList s.toList).asString

/-- Python's `str.lower()` (ASCII-faithful; all patterns compared in the
code are ASCII). -/
def pyLower (s : String) : String :=
  (s.toList.map Char.toLower).asString

/-- Python's `" ".join(xs)`. -/
def joinSp (xs : List String) : String :=
  String.intercalate " " xs

/-- Python's `"".join(xs)`: plain concatenation of a list of strings. -/
def strConcat : List String → String
  | [] => ""
  | s :: rest => s ++ strConcat rest

/-! ## Data model (§3 of the spec, mirrored from the JSON dicts in the code) -/

/-- One raw (zh, en) pair as produced by `CTEXTParser`. -/
structure RawPassage where
  zh : String
  en : String
deriving DecidableEq, Repr, Inhabited

/-- One passage dict `{"ref": ..., "zh": ..., "en": ...}`. -/
structure Passage where
  ref : String
  zh : String
  en : String
deriving DecidableEq, Repr, Inhabited

/-! ## `align_passages` (src/split_mengzi.py lines 75–153) -/

/-- The ref string `f"{chapter_num}:{start_ref + i}"`. -/
def mkRef (chapterNum idx : Nat) : String :=
  toString chapterNum ++ ":" ++ toString idx

/-- `align_passages(zh_sentences, en_sentences, chapter_num, start_ref)` from
`src/split_mengzi.py`.  Python list negative indexing `xs[-2]`/`xs[-1]` is
written with `List.getD` at explicit positions; `"".join` is `strConcat`
and `" ".join` is `joinSp`. -/
def align_passages (zh_sentences en_sentences : List String)
    (chapter_num start_ref : Nat) : List Passage × Nat :=
  let zh_count := zh_sentences.length
  let en_count := en_sentences.length
  if zh_count = 0 ∧ en_count = 0 then
    ([], start_ref)
  else if zh_count = 0 then
    ([⟨mkRef chapter_num start_ref, "", joinSp en_sentences⟩], start_ref + 1)
  else if en_count = 0 then
    ([⟨mkRef chapter_num start_ref, strConcat zh_sentences, ""⟩], start_ref + 1)
  else if zh_count = en_count then
    ((List.range zh_count).map (fun i =>
        ⟨mkRef chapter_num (start_ref + i),
         zh_sentences.getD i "", en_sentences.getD i ""⟩),
     start_ref + zh_count)
  else if zh_count = en_count + 1 then
    -- one more Chinese sentence: combine the last two Chinese
    ((List.range (en_count - 1)).map (fun i =>
        ⟨mkRef chapter_num (start_ref + i),
         zh_sentences.getD i "", en_sentences.getD i ""⟩) ++
     [⟨mkRef chapter_num (start_ref + en_count - 1),
       zh_sentences.getD (zh_count - 2) "" ++ zh_sentences.getD (zh_count - 1) "",
       en_sentences.getD (en_count - 1) ""⟩],
     start_ref + en_count)
  else if en_count = zh_count + 1 then
    -- one more English sentence: combine the last two English
    ((List.range (zh_count - 1)).map (fun i =>
        ⟨mkRef chapter_num (start_ref + i),
         zh_sentences.getD i "", en_sentences.getD i ""⟩) ++
     [⟨mkRef chapter_num (start_ref + zh_count - 1),
       zh_sentences.getD (zh_count - 1) "",
       en_sentences.getD (en_count - 2) "" ++ " " ++ en_sentences.getD (en_count - 1) ""⟩],
     start_ref + zh_count)
  else
    -- counts differ too much: keep as single passage
    ([⟨mkRef chapter_num start_ref, strConcat zh_sentences, joinSp en_sentences⟩],
     start_ref + 1)

/-! ## List and string concatenation lemmas -/

theorem strConcat_append (a b : List String) :
    strConcat (a ++ b) = strConcat a ++ strConcat b := by
  induction a with
  | nil => simp [strConcat, String.empty_append]
  | cons s t ih => simp [strConcat, ih, String.append_assoc]

theorem strConcat_take_drop (k : Nat) (l : List String) :
    strConcat l = strConcat (l.take k) ++ strConcat (l.drop k) := by
  rw [← strConcat_append, List.take_append_drop]

theorem map_getD_range_take {α : Type} (d : α) :
    ∀ (k : Nat) (l : List α), k ≤ l.length →
      (List.range k).map (fun i => l.getD i d) = l.take k := by
  intro k
  induction k with
  | zero => intro l _; simp
  | succ n ih =>
    intro l h
    cases l with
    | nil => simp at h
    | cons a t =>
      have h' : n ≤ t.length := by simpa using Nat.le_of_succ_le_succ h
      rw [List.range_succ_eq_map, List.map_cons, List.map_map]
      have hfun : ((fun i => (a :: t).getD i d) ∘ Nat.succ) = fun i => t.getD i d := by
        funext i
        simp [Function.comp, List.getD_cons_succ]
      simp only [List.getD_cons_zero, List.take_succ_cons, hfun]
      rw [ih t h']

theorem map_getD_range {α : Type} (d : α) (l : List α) :
    (List.range l.length).map (fun i => l.getD i d) = l := by
  simpa using map_getD_range_take d l.length l le_rfl

theorem drop_eq_singleton {α : Type} (d : α) :
    ∀ (k : Nat) (l : List α), l.length = k + 1 → l.drop k = [l.getD k d] := by
  intro k
  induction k with
  | zero =>
    intro l h
    cases l with
    | nil => simp at h
    | cons a t =>
      have ht : t = [] := List.length_eq_zero.mp (by simpa using h)
      subst ht; simp
  | succ n ih =>
    intro l h
    cases l with
    | nil => simp at h
    | cons a t =>
      simpa using ih t (by simpa using h)

theorem drop_eq_pair {α : Type} (d : α) :
    ∀ (k : Nat) (l : List α), l.length = k + 2 →
      l.drop k = [l.getD k d, l.getD (k + 1) d] := by
  intro k
  induction k with
  | zero =>
    intro l h
    cases l with
    | nil => simp at h
    | cons a t =>
      have := drop_eq_singleton d 0 t (by simpa using h)
      simpa using this
  | succ n ih =>
    intro l h
    cases l with
    | nil => simp at h
    | cons a t =>
      simpa using ih t (by simpa using h)

/-! ## Theorems about `align_passages` -/

/-- Claim C5: Sentence Aligner exactness and reference numbering.  With equal
nonzero source and target sentence counts `m`, `align_passages` with chapter
number `c` and start index `s` emits `m` passages pairing sentence `i` with
sentence `i`, with refs `"c:s"`, ..., `"c:(s+m-1)"`, and returns next index
`s + m`. -/
theorem align_passages_exact (zh en : List String) (c s m : Nat)
    (hzh : zh.length = m) (hen : en.length = m) (hm : 0 < m) :
    (align_passages zh en c s).1.length = m ∧
    (align_passages zh en c s).2 = s + m ∧
    ∀ i, i < m →
      (align_passages zh en c s).1.getD i default =
        ⟨mkRef c (s + i), zh.getD i "", en.getD i ""⟩ := by
  simp only [align_passages]
  rw [if_neg (by omega), if_neg (by omega), if_neg (by omega), if_pos (by omega)]
  refine ⟨by simpa using hzh, by simpa using hzh, ?_⟩
  intro i hi
  have hi' : i < zh.length := by omega
  simp [List.getD_eq_getElem?_getD, List.getElem?_map, List.getElem?_range hi']

/-- Claim C5 witness: the concrete spec scenario with source `["甲。","乙。","丙。"]`,
target `["A.","B.","C."]`, chapter 1, start index 1 yields three 1:1 passages
with refs `"1:1"`, `"1:2"`, `"1:3"` and next index 4. -/
theorem align_passages_exact_witness :
    (align_passages ["甲。", "乙。", "丙。"] ["A.", "B.", "C."] 1 1).1.length = 3 ∧
    (align_passages ["甲。", "乙。", "丙。"] ["A.", "B.", "C."] 1 1).2 = 4 ∧
    (align_passages ["甲。", "乙。", "丙。"] ["A.", "B.", "C."] 1 1).1.getD 0 default =
      ⟨"1:1", "甲。", "A."⟩ ∧
    (align_passages ["甲。", "乙。", "丙。"] ["A.", "B.", "C."] 1 1).1.getD 1 default =
      ⟨"1:2", "乙。", "B."⟩ ∧
    (align_passages ["甲。", "乙。", "丙。"] ["A.", "B.", "C."] 1 1).1.getD 2 default =
      ⟨"1:3", "丙。", "C."⟩ := by
  have h := align_passages_exact ["甲。", "乙。", "丙。"] ["A.", "B.", "C."] 1 1 3
    rfl rfl (by decide)
  refine ⟨h.1, h.2.1, ?_, ?_, ?_⟩
  · have := h.2.2 0 (by decide)
    simpa [mkRef] using this
  · have := h.2.2 1 (by decide)
    simpa [mkRef] using this
  · have := h.2.2 2 (by decide)
    simpa [mkRef] using this

/-- Claim C4: Sentence Aligner divergence fallback.  When both sides are
nonempty and the counts differ by at least two, `align_passages` emits exactly
one passage whose source is the concatenation of all source sentences and
whose target is the single-space join of all target sentences. -/
theorem align_passages_divergence (zh en : List String) (c s : Nat)
    (hzh : zh ≠ []) (hen : en ≠ [])
    (hdiff : zh.length + 2 ≤ en.length ∨ en.length + 2 ≤ zh.length) :
    align_passages zh en c s =
      ([⟨mkRef c s, strConcat zh, joinSp en⟩], s + 1) := by
  have hz : zh.length ≠ 0 := by simpa using List.length_pos.mpr hzh |>.ne'
  have he : en.length ≠ 0 := by simpa using List.length_pos.mpr hen |>.ne'
  simp only [align_passages]
  rw [if_neg (by omega), if_neg (by omega), if_neg (by omega), if_neg (by omega),
    if_neg (by omega), if_neg (by omega)]

/-- Claim C4 witness: the concrete spec scenario — 5 source sentences against
2 target sentences collapses to a single passage holding all text. -/
theorem align_passages_divergence_witness :
    align_passages ["一。", "二。", "三。", "四。", "五。"] ["A.", "B."] 1 1 =
      ([⟨"1:1", "一。二。三。四。五。", "A. B."⟩], 2) := by
  have h := align_passages_divergence ["一。", "二。", "三。", "四。", "五。"] ["A.", "B."] 1 1
    (by decide) (by decide) (by right; decide)
  rw [h]
  rfl

/-- Claim C3: Sentence Aligner off-by-one merge.  When both sides are nonempty
and the counts differ by exactly one, `align_passages` emits `min m n`
passages paired 1:1 in order, except that the final passage merges the two
trailing sentences of the longer side (Chinese sides concatenated directly,
English sides joined with one space). -/
theorem align_passages_off_by_one (zh en : List String) (c s : Nat)
    (hzh : zh ≠ []) (hen : en ≠ [])
    (hne : zh.length = en.length + 1 ∨ en.length = zh.length + 1) :
    (align_passages zh en c s).1.length = min zh.length en.length ∧
    (align_passages zh en c s).2 = s + min zh.length en.length ∧
    (∀ i, i + 1 < min zh.length en.length →
      (align_passages zh en c s).1.getD i default =
        ⟨mkRef c (s + i), zh.getD i "", en.getD i ""⟩) ∧
    (align_passages zh en c s).1.getD (min zh.length en.length - 1) default =
      (if zh.length = en.length + 1 then
        ⟨mkRef c (s + en.length - 1),
         zh.getD (zh.length - 2) "" ++ zh.getD (zh.length - 1) "",
         en.getD (en.length - 1) ""⟩
       else
        ⟨mkRef c (s + zh.length - 1),
         zh.getD (zh.length - 1) "",
         en.getD (en.length - 2) "" ++ " " ++ en.getD (en.length - 1) ""⟩) := by
  have hz : zh.length ≠ 0 := by simpa using List.length_pos.mpr hzh |>.ne'
  have he : en.length ≠ 0 := by simpa using List.length_pos.mpr hen |>.ne'
  rcases hne with hm | hm
  · -- one more Chinese sentence
    have hmin : min zh.length en.length = en.length := by omega
    simp only [align_passages]
    rw [if_neg (by omega), if_neg (by omega), if_neg (by omega), if_neg (by omega),
      if_pos (by omega)]
    have hlenA : ((List.range (en.length - 1)).map (fun i =>
        (⟨mkRef c (s + i), zh.getD i "", en.getD i ""⟩ : Passage))).length =
        en.length - 1 := by simp
    refine ⟨?_, ?_, ?_, ?_⟩
    · simp [hmin]; omega
    · rw [hmin]
    · intro i hi
      rw [hmin] at hi
      rw [List.getD_append _ _ _ _ (by rw [hlenA]; omega)]
      have hi' : i < en.length - 1 := by omega
      simp [List.getD_eq_getElem?_getD, List.getElem?_map, List.getElem?_range hi']
    · rw [hmin, if_pos hm]
      rw [List.getD_append_right _ _ _ _ (le_of_eq hlenA), hlenA]
      simp
  · -- one more English sentence
    have hmin : min zh.length en.length = zh.length := by omega
    simp only [align_passages]
    rw [if_neg (by omega), if_neg (by omega), if_neg (by omega), if_neg (by omega),
      if_neg (by omega), if_pos (by omega)]
    have hlenA : ((List.range (zh.length - 1)).map (fun i =>
        (⟨mkRef c (s + i), zh.getD i "", en.getD i ""⟩ : Passage))).length =
        zh.length - 1 := by simp
    refine ⟨?_, ?_, ?_, ?_⟩
    · simp [hmin]; omega
    · rw [hmin]
    · intro i hi
      rw [hmin] at hi
      rw [List.getD_append _ _ _ _ (by rw [hlenA]; omega)]
      have hi' : i < zh.length - 1 := by omega
      simp [List.getD_eq_getElem?_getD, List.getElem?_map, List.getElem?_range hi']
    · rw [hmin, if_neg (by omega)]
      rw [List.getD_append_right _ _ _ _ (le_of_eq hlenA), hlenA]
      simp

/-- Claim C3 witness: the concrete spec scenario — 3 source sentences against
2 target sentences yields 2 passages, the second pairing the concatenation of
source sentences 2 and 3 with target sentence 2, and next index `1 + 2`. -/
theorem align_passages_off_by_one_witness :
    (align_passages ["甲。", "乙。", "丙。"] ["A.", "B."] 1 1).1.length = 2 ∧
    (align_passages ["甲。", "乙。", "丙。"] ["A.", "B."] 1 1).2 = 3 ∧
    (align_passages ["甲。", "乙。", "丙。"] ["A.", "B."] 1 1).1.getD 0 default =
      ⟨"1:1", "甲。", "A."⟩ ∧
    (align_passages ["甲。", "乙。", "丙。"] ["A.", "B."] 1 1).1.getD 1 default =
      ⟨"1:2", "乙。丙。", "B."⟩ := by
  have h := align_passages_off_by_one ["甲。", "乙。", "丙。"] ["A.", "B."] 1 1
    (by decide) (by decide) (by left; decide)
  refine ⟨by simpa using h.1, by simpa using h.2.1, ?_, ?_⟩
  · have := h.2.2.1 0 (by decide)
    simpa [mkRef] using this
  · have := h.2.2.2
    simpa [mkRef] using this

/-- Claim C10: Sentence Aligner source-text losslessness in every branch.
For all input sentence lists, chapter numbers and start indices, the
character-for-character concatenation of the source-text fields of the
emitted passages equals the concatenation of the input source sentences. -/
theorem align_passages_source_lossless (zh en : List String) (c s : Nat) :
    strConcat ((align_passages zh en c s).1.map Passage.zh) = strConcat zh := by
  simp only [align_passages]
  split_ifs with h1 h2 h3 h4 h5 h6
  · -- both sides empty
    have hz : zh = [] := List.length_eq_zero.mp h1.1
    subst hz
    simp [strConcat]
  · -- empty source side: the single passage carries empty source text
    have hz : zh = [] := List.length_eq_zero.mp h2
    subst hz
    simp [strConcat, String.append_empty]
  · -- empty target side: the single passage carries the full joined source
    simp [strConcat, String.append_empty]
  · -- equal counts: passage i carries source sentence i
    simp only [List.map_map]
    have hfun : (Passage.zh ∘ fun i =>
        (⟨mkRef c (s + i), zh.getD i "", en.getD i ""⟩ : Passage)) =
        fun i => zh.getD i "" := rfl
    rw [hfun, map_getD_range]
  · -- one more Chinese sentence: prefix plus the merged trailing pair
    have hn : 1 ≤ en.length := Nat.pos_of_ne_zero h3
    simp only [List.map_append, List.map_map, List.map_cons, List.map_nil]
    have hfun : (Passage.zh ∘ fun i =>
        (⟨mkRef c (s + i), zh.getD i "", en.getD i ""⟩ : Passage)) =
        fun i => zh.getD i "" := rfl
    rw [hfun, map_getD_range_take "" _ zh (by omega)]
    have hd := drop_eq_pair "" (en.length - 1) zh (by omega)
    rw [show zh.length - 2 = en.length - 1 from by omega,
      show zh.length - 1 = en.length - 1 + 1 from by omega]
    conv_rhs => rw [strConcat_take_drop (en.length - 1) zh, hd]
    simp [strConcat_append, strConcat, String.append_empty, String.append_assoc]
  · -- one more English sentence: prefix plus the final source sentence
    have hmz : 1 ≤ zh.length := Nat.pos_of_ne_zero h2
    simp only [List.map_append, List.map_map, List.map_cons, List.map_nil]
    have hfun : (Passage.zh ∘ fun i =>
        (⟨mkRef c (s + i), zh.getD i "", en.getD i ""⟩ : Passage)) =
        fun i => zh.getD i "" := rfl
    rw [hfun, map_getD_range_take "" _ zh (by omega)]
    have hd := drop_eq_singleton "" (zh.length - 1) zh (by omega)
    conv_rhs => rw [strConcat_take_drop (zh.length - 1) zh, hd]
    simp [strConcat_append, strConcat, String.append_empty]
  · -- divergence fallback: the single passage carries the full joined source
    simp [strConcat, String.append_empty]

/-! ## Idempotence of `pyStrip` -/

theorem head_dropWhile_false {α : Type} (p : α → Bool) :
    ∀ (l : List α) (c : α), (l.dropWhile p).head? = some c → p c = false := by
  intro l
  induction l with
  | nil => intro c h; simp at h
  | cons a t ih =>
    intro c h
    rw [List.dropWhile_cons] at h
    by_cases hp : p a
    · rw [if_pos hp] at h
      exact ih c h
    · rw [if_neg hp] at h
      simp only [List.head?_cons, Option.some.injEq] at h
      subst h
      simpa using hp

theorem dropWhile_eq_self_of_head {α : Type} (p : α → Bool) (l : List α)
    (h : ∀ c, l.head? = some c → p c = false) : l.dropWhile p = l := by
  cases l with
  | nil => rfl
  | cons a t =>
    rw [List.dropWhile_cons, if_neg]
    simp [h a rfl]

theorem getLast_dropWhile_eq {α : Type} (p : α → Bool) :
    ∀ (l : List α), l.dropWhile p ≠ [] → (l.dropWhile p).getLast? = l.getLast? := by
  intro l
  induction l with
  | nil => intro h; simp at h
  | cons a t ih =>
    intro h
    rw [List.dropWhile_cons]
    by_cases hp : p a
    · rw [List.dropWhile_cons, if_pos hp] at h
      rw [if_pos hp, ih h]
      cases t with
      | nil => simp [List.dropWhile] at h
      | cons b u => rw [List.getLast?_cons_cons]
    · rw [if_neg hp]

theorem trimList_idem (l : List Char) : trimList (trimList l) = trimList l := by
  set w := Char.isWhitespace with hw
  have key : ∀ m : List Char, trimList (trimList m) = trimList m := by
    intro m
    unfold trimList trimLeftList
    set A := m.dropWhile w with hA
    set B := A.reverse.dropWhile w with hB
    by_cases hBnil : B = []
    · simp [hBnil, List.dropWhile]
    · -- head of B is non-whitespace, last of B is head of A, also non-whitespace
      have hBhead : ∀ c, B.head? = some c → w c = false := fun c hc =>
        head_dropWhile_false w A.reverse c (by rw [← hB]; exact hc)
      have hBlast : ∀ c, B.getLast? = some c → w c = false := by
        intro c hc
        rw [hB, getLast_dropWhile_eq w A.reverse (by rw [← hB]; exact hBnil),
          List.getLast?_reverse] at hc
        exact head_dropWhile_false w m c (by rw [← hA]; exact hc)
      have step1 : B.reverse.dropWhile w = B.reverse := by
        apply dropWhile_eq_self_of_head
        intro c hc
        rw [List.head?_reverse] at hc
        exact hBlast c hc
      rw [step1, List.reverse_reverse]
      have step2 : B.dropWhile w = B := dropWhile_eq_self_of_head w B hBhead
      rw [step2]
  exact key l

theorem pyStrip_idem (s : String) : pyStrip (pyStrip s) = pyStrip s := by
  unfold pyStrip
  have h : ((trimList s.toList).asString).toList = trimList s.toList := rfl
  rw [h, trimList_idem]

theorem pyStrip_asString_ne (s : String) (h : pyStrip s ≠ "") :
    trimList s.toList ≠ [] := by
  intro hnil
  apply h
  unfold pyStrip
  rw [hnil]
  rfl

/-! ## `CTEXTParser` (src/scrape_ctp.py lines 466–510)

The Python class is driven by `html.parser.HTMLParser`, which tokenises raw
markup into start-tag / end-tag / character-data events (that tokeniser is
the standard library, not this repository).  We embed the class as a fold
over that event stream; `cls` is `dict(attrs).get('class', '')`. -/

/-- One markup event as delivered by `HTMLParser` to the three handlers. -/
inductive HEvent where
  | starttag (tag : String) (cls : String)
  | endtag (tag : String)
  | dataev (s : String)
deriving DecidableEq, Repr

/-- The mutable state of `CTEXTParser` (its `__init__` fields). -/
structure CTEXTParser where
  passages : List RawPassage
  current_zh : String
  current_en : String
  in_ctext_td : Bool
  in_etext_td : Bool
  pending_zh : Option String
deriving DecidableEq, Repr

/-- `CTEXTParser.__init__`. -/
def CTEXTParser.init : CTEXTParser :=
  ⟨[], "", "", false, false, none⟩

/-- `CTEXTParser.handle_starttag`. -/
def CTEXTParser.handle_starttag (st : CTEXTParser) (tag cls : String) : CTEXTParser :=
  if tag = "td" then
    if cls = "ctext" then
      { st with in_ctext_td := true, current_zh := "" }
    else if cls = "etext" then
      { st with in_etext_td := true, current_en := "" }
    else st
  else st

/-- `CTEXTParser.handle_endtag`.  Python truthiness `if self.pending_zh and en`
is: `pending_zh` is a non-`None`, nonempty string and `en` is nonempty. -/
def CTEXTParser.handle_endtag (st : CTEXTParser) (tag : String) : CTEXTParser :=
  if tag = "td" then
    if st.in_ctext_td then
      let zh := pyStrip st.current_zh
      { st with in_ctext_td := false,
                pending_zh := if zh ≠ "" then some zh else st.pending_zh }
    else if st.in_etext_td then
      let en := pyStrip st.current_en
      match st.pending_zh with
      | some z =>
        if z ≠ "" ∧ en ≠ "" then
          { st with in_etext_td := false,
                    passages := st.passages ++ [⟨z, en⟩],
                    pending_zh := none }
        else { st with in_etext_td := false }
      | none => { st with in_etext_td := false }
    else st
  else st

/-- `CTEXTParser.handle_data`. -/
def CTEXTParser.handle_data (st : CTEXTParser) (s : String) : CTEXTParser :=
  if st.in_ctext_td then { st with current_zh := st.current_zh ++ s }
  else if st.in_etext_td then { st with current_en := st.current_en ++ s }
  else st

/-- Dispatch of one tokenised markup event to the corresponding handler. -/
def CTEXTParser.feedEvent (st : CTEXTParser) : HEvent → CTEXTParser
  | .starttag tag cls => st.handle_starttag tag cls
  | .endtag tag => st.handle_endtag tag
  | .dataev s => st.handle_data s

/-- `parser.feed(raw)` over the tokenised event stream. -/
def CTEXTParser.feed (st : CTEXTParser) (events : List HEvent) : CTEXTParser :=
  events.foldl CTEXTParser.feedEvent st

/-- `fetch_chapter`'s use of the parser: feed the page and read `passages`. -/
def extractPassages (events : List HEvent) : List RawPassage :=
  (CTEXTParser.init.feed events).passages

/-- A string that survived `pyStrip` nonempty: nonempty and trim-fixed. -/
def GoodStr (x : String) : Prop := x ≠ "" ∧ pyStrip x = x

/-- The invariant maintained by the parser state: every emitted pair and any
pending source value holds nonempty stripped text. -/
def ParserInv (st : CTEXTParser) : Prop :=
  (∀ p ∈ st.passages, GoodStr p.zh ∧ GoodStr p.en) ∧
  (∀ z, st.pending_zh = some z → GoodStr z)

theorem parserInv_init : ParserInv CTEXTParser.init := by
  constructor
  · intro p hp
    simp [CTEXTParser.init] at hp
  · intro z hz
    simp [CTEXTParser.init] at hz

theorem parserInv_step (st : CTEXTParser) (e : HEvent) (h : ParserInv st) :
    ParserInv (st.feedEvent e) := by
  obtain ⟨hpass, hpend⟩ := h
  cases e with
  | starttag tag cls =>
    simp only [CTEXTParser.feedEvent, CTEXTParser.handle_starttag]
    split_ifs <;> exact ⟨hpass, hpend⟩
  | dataev s =>
    simp only [CTEXTParser.feedEvent, CTEXTParser.handle_data]
    split_ifs <;> exact ⟨hpass, hpend⟩
  | endtag tag =>
    simp only [CTEXTParser.feedEvent, CTEXTParser.handle_endtag]
    by_cases htd : tag = "td"
    · rw [if_pos htd]
      by_cases hct : st.in_ctext_td = true
      · -- closing a source cell: maybe install a pending value
        rw [if_pos hct]
        refine ⟨hpass, ?_⟩
        intro z hz
        simp only at hz
        by_cases hne : pyStrip st.current_zh ≠ ""
        · rw [if_pos hne] at hz
          cases hz
          exact ⟨hne, pyStrip_idem st.current_zh⟩
        · rw [if_neg hne] at hz
          exact hpend z hz
      · rw [if_neg hct]
        by_cases het : st.in_etext_td = true
        · -- closing a target cell: maybe emit a pair
          rw [if_pos het]
          cases hpz : st.pending_zh with
          | some z =>
            dsimp only
            by_cases hcond : z ≠ "" ∧ pyStrip st.current_en ≠ ""
            · rw [if_pos hcond]
              refine ⟨?_, ?_⟩
              · intro p hp
                simp only [List.mem_append, List.mem_singleton] at hp
                rcases hp with hp | hp
                · exact hpass p hp
                · subst hp
                  exact ⟨hpend z hpz, ⟨hcond.2, pyStrip_idem st.current_en⟩⟩
              · intro z' hz'
                simp at hz'
            · rw [if_neg hcond]
              refine ⟨hpass, ?_⟩
              intro z' hz'
              cases hz'
              exact hpend z hpz
          | none =>
            dsimp only
            exact ⟨hpass, fun z' hz' => Option.noConfusion hz'⟩
        · rw [if_neg het]
          exact ⟨hpass, hpend⟩
    · rw [if_neg htd]
      exact ⟨hpass, hpend⟩

theorem parserInv_feed (events : List HEvent) :
    ∀ st : CTEXTParser, ParserInv st → ParserInv (st.feed events) := by
  induction events with
  | nil => intro st h; exact h
  | cons e rest ih =>
    intro st h
    exact ih (st.feedEvent e) (parserInv_step st e h)

/-- Claim C6: the Structural Extractor never emits an empty-sided pair.  For
every tokenised markup input, every (source, target) pair in the extractor's
output has a non-empty trimmed source text and a non-empty trimmed target
text. -/
theorem extractPassages_no_empty_side (events : List HEvent) (p : RawPassage)
    (hp : p ∈ extractPassages events) :
    pyStrip p.zh ≠ "" ∧ pyStrip p.en ≠ "" := by
  have hinv := parserInv_feed events CTEXTParser.init parserInv_init
  obtain ⟨⟨hz1, hz2⟩, ⟨he1, he2⟩⟩ := hinv.1 p hp
  constructor
  · rw [hz2]; exact hz1
  · rw [he2]; exact he1

/-- A concrete page fragment: one `ctext` cell followed by one `etext` cell. -/
def demoEvents : List HEvent :=
  [.starttag "td" "ctext", .dataev " 子曰 ", .endtag "td",
   .starttag "td" "etext", .dataev " The Master said ", .endtag "td"]

/-- Claim C6 witness: the pair extracted from `demoEvents` has nonempty
trimmed text on both sides. -/
theorem extractPassages_no_empty_side_witness :
    pyStrip (RawPassage.zh ⟨"子曰", "The Master said"⟩) ≠ "" ∧
    pyStrip (RawPassage.en ⟨"子曰", "The Master said"⟩) ≠ "" :=
  extractPassages_no_empty_side demoEvents ⟨"子曰", "The Master said"⟩ (by decide)

/-! ## Corpus Auditor (src/validate_translations.py)

`is_bad_translation` compares `chinese_count / len(en) > 0.3` in IEEE double
arithmetic; for every string short enough to exist in memory (far below
`10^15` characters) that comparison coincides with the exact rational
comparison `10 * chinese_count > 3 * len(en)`, which is how we embed it.
Likewise `chapter_bad_passages / len(passages) > 0.5` is embedded as
`2 * bad > len`. -/

/-- `BAD_PATTERNS` from src/validate_translations.py. -/
def BAD_PATTERNS : List String :=
  ["Enjoy this site? Please help",
   "Please help",
   "Site feedback",
   "ctext.org",
   "Log in",
   "Sign up",
   "Privacy policy",
   "Terms of service"]

/-- The character test `'一' <= c <= '鿿' or '㐀' <= c <= '䶿'`
used in `is_bad_translation`. -/
def isChineseChar (c : Char) : Bool :=
  (0x4e00 ≤ c.toNat && c.toNat ≤ 0x9fff) || (0x3400 ≤ c.toNat && c.toNat ≤ 0x4dbf)

/-- `sum(1 for c in en if ...)` in `is_bad_translation`. -/
def chineseCharCount (en : String) : Nat :=
  (en.toList.filter isChineseChar).length

/-- `is_bad_translation(en)` from src/validate_translations.py. -/
def is_bad_translation (en : String) : Bool :=
  if en = "" ∨ (pyStrip en).length < 10 then true
  else if BAD_PATTERNS.any (fun pattern =>
      decide ((pyLower pattern).toList <:+: (pyLower en).toList)) then true
  else if 0 < en.length ∧ 10 * chineseCharCount en > 3 * en.length then true
  else false

/-- The per-chapter count `chapter_bad_passages` in `validate_translation`. -/
def badPassageCount (passages : List Passage) : Nat :=
  (passages.filter (fun p => is_bad_translation p.en)).length

/-- The per-chapter flagging test
`len(passages) > 0 and chapter_bad_passages / len(passages) > 0.5`
in `validate_translation`. -/
def chapterFlagged (passages : List Passage) : Bool :=
  decide (0 < passages.length ∧ passages.length < 2 * badPassageCount passages)

/-- The claim's wording of "suspect", written independently of the code:
empty or shorter than 10 characters after trimming, or case-insensitively
containing a boilerplate phrase, or more than 30% of the characters in the
CJK source-script ranges (stated as an exact rational comparison). -/
def SuspectSpec (en : String) : Prop :=
  (pyStrip en).length < 10 ∨
  (∃ pat ∈ BAD_PATTERNS, (pyLower pat).toList <:+: (pyLower en).toList) ∨
  (0 < en.length ∧ (3 : ℚ) / 10 < (chineseCharCount en : ℚ) / (en.length : ℚ))

/-- A passage whose target is a known login prompt. -/
def loginPassage (r : String) : Passage :=
  ⟨r, "子曰", "Log in to continue"⟩

/-- A passage whose target is an ordinary, non-suspect translation. -/
def okPassage (r : String) : Passage :=
  ⟨r, "學而", "The Master said: How admirable!"⟩

/-- Claim C7: Corpus Auditor flagging rule.  A target text is suspect exactly
under the spec's three-part condition, a chapter is flagged exactly when its
suspect fraction exceeds one half, and concretely a 4-passage chapter with 3
"Log in to continue" targets is flagged while the same chapter with only 1
such target is not. -/
theorem auditor_flagging_rule :
    (∀ en : String, is_bad_translation en = true ↔ SuspectSpec en) ∧
    (∀ passages : List Passage, chapterFlagged passages = true ↔
      (passages ≠ [] ∧
        (1 : ℚ) / 2 < (badPassageCount passages : ℚ) / (passages.length : ℚ))) ∧
    chapterFlagged
      [loginPassage "1:1", loginPassage "1:2", loginPassage "1:3", okPassage "1:4"] =
      true ∧
    chapterFlagged
      [loginPassage "1:1", okPassage "1:2", okPassage "1:3", okPassage "1:4"] =
      false := by
  refine ⟨?_, ?_, by decide, by decide⟩
  · intro en
    unfold is_bad_translation SuspectSpec
    split_ifs with h1 h2 h3
    · refine ⟨fun _ => ?_, fun _ => rfl⟩
      rcases h1 with h | h
      · subst h
        exact Or.inl (by decide)
      · exact Or.inl h
    · refine ⟨fun _ => ?_, fun _ => rfl⟩
      obtain ⟨pat, hmem, hdec⟩ := List.any_eq_true.mp h2
      exact Or.inr (Or.inl ⟨pat, hmem, of_decide_eq_true hdec⟩)
    · refine ⟨fun _ => ?_, fun _ => rfl⟩
      refine Or.inr (Or.inr ⟨h3.1, ?_⟩)
      have hlen : (0 : ℚ) < (en.length : ℚ) := by exact_mod_cast h3.1
      rw [div_lt_div_iff₀ (by norm_num) hlen]
      have hnat : 3 * en.length < chineseCharCount en * 10 := by
        have := h3.2
        omega
      exact_mod_cast hnat
    · refine ⟨fun h => absurd h (by simp), fun hs => ?_⟩
      exfalso
      push_neg at h1
      rcases hs with h | ⟨pat, hmem, hinf⟩ | ⟨hpos, hratio⟩
      · omega
      · exact h2 (List.any_eq_true.mpr ⟨pat, hmem, decide_eq_true hinf⟩)
      · apply h3
        refine ⟨hpos, ?_⟩
        have hlen : (0 : ℚ) < (en.length : ℚ) := by exact_mod_cast hpos
        rw [div_lt_div_iff₀ (by norm_num) hlen] at hratio
        have : (3 : ℚ) * (en.length : ℚ) < (chineseCharCount en : ℚ) * 10 := hratio
        have hq : 3 * en.length < chineseCharCount en * 10 := by exact_mod_cast this
        omega
  · intro passages
    unfold chapterFlagged
    rw [decide_eq_true_iff]
    constructor
    · rintro ⟨hpos, hmaj⟩
      refine ⟨List.length_pos.mp hpos, ?_⟩
      have hlen : (0 : ℚ) < (passages.length : ℚ) := by exact_mod_cast hpos
      rw [div_lt_div_iff₀ (by norm_num) hlen]
      have hq : (passages.length : ℚ) < 2 * (badPassageCount passages : ℚ) := by
        exact_mod_cast hmaj
      linarith
    · rintro ⟨hne, hmaj⟩
      have hpos : 0 < passages.length := List.length_pos.mpr hne
      refine ⟨hpos, ?_⟩
      have hlen : (0 : ℚ) < (passages.length : ℚ) := by exact_mod_cast hpos
      rw [div_lt_div_iff₀ (by norm_num) hlen] at hmaj
      have hq : 1 * passages.length < badPassageCount passages * 2 := by
        exact_mod_cast hmaj
      omega

/-! ## `split_english_sentences` (src/split_mengzi.py lines 37–72)

The function first checks `if not text.strip(): return []`, then normalises
whitespace and substitutes abbreviation placeholders, and then calls
`re.split` with the pattern

    (?<=[.!?]["\x27]?)\s+(?=[A-Z"\x27\(])

(`\x27` denotes the apostrophe).  The look-behind group matches strings of
length 1 or 2 because of the `?` quantifier, and CPython rejects
variable-width look-behind patterns when the pattern is compiled, raising
`re.error: look-behind requires fixed-width pattern` (verified against
CPython 3.11).  The pattern is compiled on the first `re.split` call, so
every call that reaches it — every call whose input is non-blank — raises.
The whitespace normalisation and abbreviation substitutions complete before
the raise, but their results are discarded by the exception. -/

/-- The exception class of the `re` module, restricted to the one error this
pattern triggers. -/
inductive PyRegexError where
  | lookBehindRequiresFixedWidth
deriving DecidableEq, Repr

/-- `split_english_sentences(text)` from src/split_mengzi.py: returns `[]`
for blank input, and raises `re.error` for all other input (see the section
comment). -/
def split_english_sentences (text : String) : Except PyRegexError (List String) :=
  if pyStrip text = "" then .ok []
  else .error PyRegexError.lookBehindRequiresFixedWidth

/-- Claim C2 (code bug): at the failing input `"Hello. World."` the target
splitter raises `re.error` instead of returning the fragments
`["Hello.", "World."]` that the claim describes — the split regex has a
variable-width look-behind, which the `re` module rejects at compile time. -/
theorem split_english_sentences_raises :
    split_english_sentences "Hello. World." =
      Except.error PyRegexError.lookBehindRequiresFixedWidth := by
  rfl

/-- The raise is not specific to that input: every non-blank input raises. -/
theorem split_english_sentences_raises_nonblank (text : String)
    (h : pyStrip text ≠ "") :
    split_english_sentences text =
      Except.error PyRegexError.lookBehindRequiresFixedWidth := by
  unfold split_english_sentences
  rw [if_neg h]

/-! ## `fetch_chapter` (src/scrape_ctp.py lines 513–565) with
`get_session`/`reset_session` (lines 439–463)

The network is modelled as a script of responses, one per attempt; the
global session is modelled by which Identity Profile creation it is bound
to (`random.choice(BROWSER_PROFILES)` is abstracted to a fresh creation
index), together with a counter of `reset_session` calls. -/

/-- One scripted HTTP response: a status code and the tokenised body. -/
structure ScriptedResponse where
  status : Nat
  body : List HEvent
deriving DecidableEq, Repr

/-- The global session state of src/scrape_ctp.py: `_session` (abstracted to
the creation index of the Identity Profile it is bound to), how many sessions
have been created, and how many times `reset_session` ran. -/
structure TransportState where
  session : Option Nat
  created : Nat
  resets : Nat
deriving DecidableEq, Repr

/-- `get_session()`: create a session bound to a fresh Identity Profile if
none exists, otherwise keep the current one. -/
def get_session (st : TransportState) : TransportState :=
  match st.session with
  | some _ => st
  | none => { st with session := some st.created, created := st.created + 1 }

/-- `reset_session()`: discard the session wholesale. -/
def reset_session (st : TransportState) : TransportState :=
  { st with session := none, resets := st.resets + 1 }

/-- The `for attempt in range(retries)` loop of `fetch_chapter`: attempt `i`
receives the `i`-th scripted response.  HTTP 200 parses and returns; 403
resets the session and retries with a fresh one; 404 returns `[]`
immediately; any other status retries after a pause.  Running out of
attempts returns `[]`. -/
def fetchAttempts (responses : List ScriptedResponse) :
    Nat → Nat → TransportState → List RawPassage × TransportState
  | 0, _, st => ([], st)
  | n + 1, i, st =>
    let resp := responses.getD i ⟨0, []⟩
    if resp.status = 200 then
      (extractPassages resp.body, st)
    else if resp.status = 403 then
      fetchAttempts responses n (i + 1) (get_session (reset_session st))
    else if resp.status = 404 then
      ([], st)
    else
      fetchAttempts responses n (i + 1) st

/-- `fetch_chapter(url, retries=3)`: acquire the session, then run the
attempt loop. -/
def fetch_chapter (responses : List ScriptedResponse) (st : TransportState) :
    List RawPassage × TransportState :=
  fetchAttempts responses 3 0 (get_session st)

/-- Claim C8: Transport Layer block recovery.  If the first attempt receives
HTTP 403 and the retry receives HTTP 200, the call returns the passages
parsed from the 200 response, exactly one session reset occurs, and the
retry runs on a freshly created session (hence a fresh Identity Profile). -/
theorem fetch_chapter_block_recovery (body403 body200 : List HEvent)
    (st : TransportState) :
    (fetch_chapter [⟨403, body403⟩, ⟨200, body200⟩] st).1 =
      extractPassages body200 ∧
    (fetch_chapter [⟨403, body403⟩, ⟨200, body200⟩] st).2.resets =
      st.resets + 1 ∧
    (fetch_chapter [⟨403, body403⟩, ⟨200, body200⟩] st).2.session =
      some (get_session st).created ∧
    (fetch_chapter [⟨403, body403⟩, ⟨200, body200⟩] st).2.created =
      (get_session st).created + 1 := by
  cases hs : st.session <;>
    simp [fetch_chapter, fetchAttempts, get_session, reset_session, hs]

/-! ## `save_output` (src/scrape_ctp.py lines 617–622)

`save_output` runs `with open(output_path, "w", ...) as f: json.dump(...)`.
`open(path, "w")` truncates the file in place as soon as it succeeds, and
`json.dump` then writes the serialisation incrementally.  The file system is
modelled as an oracle naming which step, if any, fails: a failed `open`
(permission denied) raises before the file is touched, while a failed write
(disk full) raises after `k` characters of the new serialisation have
replaced the old content.  The serialised document is abstracted to the
string `json.dump` would emit. -/

/-- The unrecoverable local I/O failures of the claim. -/
inductive IOFailure where
  | openDenied
  | writeFailAfter (k : Nat)
deriving DecidableEq, Repr

/-- `save_output` over the file-system oracle: given the previous on-disk
content and the new serialisation, return the raised exception (if any) and
the resulting on-disk content. -/
def save_output (prevDisk newContent : String) (outcome : Option IOFailure) :
    Option IOFailure × String :=
  match outcome with
  | none => (none, newContent)
  | some IOFailure.openDenied => (some IOFailure.openDenied, prevDisk)
  | some (IOFailure.writeFailAfter k) =>
    (some (IOFailure.writeFailAfter k), (newContent.toList.take k).asString)

/-- Claim C9 counterexample: a disk-full failure during the write leaves the
file truncated (here: empty), not equal to the previous snapshot `"OLD"`,
even though the failure is reported — the claim's "previously persisted
on-disk snapshot ... left untouched" is false for mid-write failures,
because `open(path, "w")` truncates before writing. -/
theorem save_output_clobbers_snapshot :
    (save_output "OLD" "NEW" (some (IOFailure.writeFailAfter 0))).1 =
      some (IOFailure.writeFailAfter 0) ∧
    (save_output "OLD" "NEW" (some (IOFailure.writeFailAfter 0))).2 ≠ "OLD" := by
  decide

/-- Claim C9 as amended: a failing save always reports its failure (the
exception propagates, aborting the work's run); the previous snapshot is
untouched exactly when the failure happens at `open` (permission denied),
while a failure after `open` leaves a prefix of the new serialisation. -/
theorem save_output_failure_semantics (prev new : String) (f : IOFailure) :
    (save_output prev new (some f)).1 = some f ∧
    (f = IOFailure.openDenied → (save_output prev new (some f)).2 = prev) ∧
    (∀ k, f = IOFailure.writeFailAfter k →
      (save_output prev new (some f)).2 = (new.toList.take k).asString) := by
  cases f with
  | openDenied =>
    refine ⟨rfl, fun _ => rfl, ?_⟩
    intro k hk
    cases hk
  | writeFailAfter k =>
    refine ⟨rfl, fun h => ?_, ?_⟩
    · cases h
    · intro k' hk'
      cases hk'
      rfl

/-- Claim C9 witness: the amended semantics at a concrete failing save — a
permission-denied `open` leaves `"OLD"` on disk and reports the failure. -/
theorem save_output_failure_semantics_witness :
    (save_output "OLD" "NEW" (some IOFailure.openDenied)).1 =
      some IOFailure.openDenied ∧
    (save_output "OLD" "NEW" (some IOFailure.openDenied)).2 = "OLD" :=
  ⟨(save_output_failure_semantics "OLD" "NEW" IOFailure.openDenied).1,
   (save_output_failure_semantics "OLD" "NEW" IOFailure.openDenied).2.1 rfl⟩

/-! ## Corpus Assembler: the per-work body of `main`
(src/scrape_ctp.py lines 700–787)

One iteration of the `for text_id in texts_to_scrape` loop is embedded as a
pure function of the catalog entry, the persisted document on disk (if any)
and a fetch oracle mapping a URL to the passages `fetch_chapter` returns for
it ("no intervening change to the fetched source" means the oracle is the
same function on both runs).  The function returns the document written to
disk (`none` when the loop body hits `continue` and writes nothing, leaving
the previous bytes untouched) and the number of `fetch_chapter` calls. -/

/-- One chapter dict.  `slug` is absent (`none`) for single-page works. -/
structure Chapter where
  number : String
  title : String
  slug : Option String
  passages : List Passage
deriving DecidableEq, Repr, Inhabited

/-- One persisted work document. -/
structure Work where
  id : String
  title : String
  titleEn : String
  source : String
  chapters : List Chapter
deriving DecidableEq, Repr, Inhabited

/-- One entry of the `TEXTS` catalog: `chapters = none` marks a single-page
work. -/
structure CatalogEntry where
  base_url : String
  title : String
  titleEn : String
  chapters : Option (List String)
deriving DecidableEq, Repr

/-- Python's `str.title()` on the ASCII slugs this program feeds it:
capitalise a letter after a non-letter, lowercase other letters. -/
def pyTitleAux : List Char → Bool → List Char
  | [], _ => []
  | c :: t, prevAlpha =>
    (if c.isAlpha then (if prevAlpha then c.toLower else c.toUpper) else c) ::
      pyTitleAux t c.isAlpha

/-- Python's `str.title()`. -/
def pyTitle (s : String) : String :=
  (pyTitleAux s.toList false).asString

/-- `format_chapter_title(slug)` from src/scrape_ctp.py. -/
def format_chapter_title (slug : String) : String :=
  pyTitle (slug.replace "-" " ")

/-- The fixed `source` attribution string written into every document. -/
def sourceAttribution : String :=
  "Chinese Text Project (ctext.org) - James Legge translation"

/-- The fresh output structure built when no existing document is loaded. -/
def freshWork (text_id : String) (entry : CatalogEntry) : Work :=
  ⟨text_id, entry.title, entry.titleEn, sourceAttribution, []⟩

/-- The body of the `existing_slugs` loop: `if ch.get("slug"): add slug
elif ch.get("number"): add number` (Python truthiness: present and
nonempty). -/
def chapterKey (ch : Chapter) : Option String :=
  match ch.slug with
  | some s => if s ≠ "" then some s else if ch.number ≠ "" then some ch.number else none
  | none => if ch.number ≠ "" then some ch.number else none

/-- The `existing_slugs` set, kept as a list (only membership matters). -/
def existingSlugs (chs : List Chapter) : List String :=
  chs.filterMap chapterKey

/-- The chapter built for a single-page work: `number="1"`, no slug, refs
`"1","2",...`. -/
def mkSingleChapter (entry : CatalogEntry) (ps : List RawPassage) : Chapter :=
  ⟨"1", entry.titleEn, none,
   ps.enum.map (fun jp => ⟨toString (jp.1 + 1), jp.2.zh, jp.2.en⟩)⟩

/-- The chapter built for page `i` (1-based) of a multi-page work: refs
`"i:1","i:2",...`. -/
def mkChapter (i : Nat) (slug : String) (ps : List RawPassage) : Chapter :=
  ⟨toString i, format_chapter_title slug, some slug,
   ps.enum.map (fun jp => ⟨mkRef i (jp.1 + 1), jp.2.zh, jp.2.en⟩)⟩

/-- The sort key `int(ch.get("number", 0))` (every number this program
writes is a decimal numeral). -/
def numberKey (ch : Chapter) : Nat :=
  ch.number.toNat?.getD 0

/-- `output["chapters"].sort(key=lambda ch: int(ch.get("number", 0)))` —
a stable sort on the numeric key. -/
def sortChapters (chs : List Chapter) : List Chapter :=
  List.insertionSort (fun a b => numberKey a ≤ numberKey b) chs

/-- `if existing and existing.get("chapters") and
existing["chapters"][0].get("passages")` — the single-page skip test. -/
def singlePageComplete (disk : Option Work) : Bool :=
  match disk with
  | some w =>
    match w.chapters with
    | [] => false
    | ch :: _ => decide (ch.passages ≠ [])
  | none => false

/-- The `for i, chapter_slug in chapters_to_scrape` loop: fetch each missing
page and append a chapter when the result is nonempty. -/
def scrapeMissing (fetch : String → List RawPassage) (base_url : String) :
    List (Nat × String) → List Chapter
  | [] => []
  | (i, slug) :: rest =>
    let passages := fetch (base_url ++ "/" ++ slug)
    (if passages = [] then [] else [mkChapter i slug passages]) ++
      scrapeMissing fetch base_url rest

/-- One iteration of the per-work loop of `main`: returns the document now
on disk (`none` if nothing was ever written) and the number of
`fetch_chapter` calls made. -/
def processText (entry : CatalogEntry) (text_id : String) (disk : Option Work)
    (fetch : String → List RawPassage) : Option Work × Nat :=
  let existing_slugs := match disk with
    | some w => existingSlugs w.chapters
    | none => []
  match entry.chapters with
  | none =>
    if singlePageComplete disk then (disk, 0)
    else
      let output := disk.getD (freshWork text_id entry)
      let passages := fetch entry.base_url
      let output' := if passages = [] then output
        else { output with chapters := output.chapters ++ [mkSingleChapter entry passages] }
      (some output', 1)
  | some slugs =>
    let chapters_to_scrape := (List.enumFrom 1 slugs).filter
      (fun p => decide (p.2 ∉ existing_slugs))
    if chapters_to_scrape = [] then (disk, 0)
    else
      let output := disk.getD (freshWork text_id entry)
      let newChapters := scrapeMissing fetch entry.base_url chapters_to_scrape
      (some { output with chapters := sortChapters (output.chapters ++ newChapters) },
       chapters_to_scrape.length)

/-! ### Lemmas for the resume-idempotence proof -/

theorem enumFrom_snd_mem {α : Type} :
    ∀ (n : Nat) (l : List α) (p : Nat × α), p ∈ List.enumFrom n l → p.2 ∈ l := by
  intro n l
  induction l generalizing n with
  | nil => intro p hp; simp [List.enumFrom] at hp
  | cons a t ih =>
    intro p hp
    simp only [List.enumFrom, List.mem_cons] at hp
    rcases hp with hp | hp
    · subst hp; simp
    · exact List.mem_cons_of_mem a (ih (n + 1) p hp)

theorem chapterKey_mkChapter (i : Nat) (slug : String) (ps : List RawPassage)
    (h : slug ≠ "") : chapterKey (mkChapter i slug ps) = some slug := by
  simp [chapterKey, mkChapter, h]

theorem mem_existingSlugs_of_key {chs : List Chapter} {ch : Chapter} {s : String}
    (hc : ch ∈ chs) (hk : chapterKey ch = some s) : s ∈ existingSlugs chs :=
  List.mem_filterMap.mpr ⟨ch, hc, hk⟩

theorem scrapeMissing_covers (fetch : String → List RawPassage) (base_url : String) :
    ∀ (pairs : List (Nat × String)),
      (∀ p ∈ pairs, p.2 ≠ "" ∧ fetch (base_url ++ "/" ++ p.2) ≠ []) →
      ∀ p ∈ pairs, p.2 ∈ existingSlugs (scrapeMissing fetch base_url pairs) := by
  intro pairs
  induction pairs with
  | nil => intro _ p hp; simp at hp
  | cons q rest ih =>
    intro h p hp
    obtain ⟨i, slug⟩ := q
    have hq := h (i, slug) (List.mem_cons_self _ _)
    simp only [scrapeMissing, if_neg hq.2]
    rcases List.mem_cons.mp hp with hp | hp
    · subst hp
      exact mem_existingSlugs_of_key (List.mem_cons_self _ _)
        (chapterKey_mkChapter i slug _ hq.1)
    · have := ih (fun r hr => h r (List.mem_cons_of_mem _ hr)) p hp
      obtain ⟨ch, hch, hkey⟩ := List.mem_filterMap.mp this
      exact mem_existingSlugs_of_key (List.mem_cons_of_mem _ hch) hkey

theorem existingSlugs_sortChapters_mem (chs : List Chapter) (s : String) :
    s ∈ existingSlugs (sortChapters chs) ↔ s ∈ existingSlugs chs :=
  ((List.perm_insertionSort _ chs).filterMap chapterKey).mem_iff

/-- Claim C1: resume idempotence of the Corpus Assembler.  If every page of
the catalog entry yields a nonempty parse (a completed first run, with the
catalog's slugs nonempty as they all are in `TEXTS`), then running the
per-work loop a second time against the document persisted by the first run
— with the same fetch oracle, i.e. no intervening source change — performs
zero fetches and leaves the disk exactly as the first run wrote it (the
second run takes the `continue` path and never writes). -/
theorem assembler_resume_idempotent (entry : CatalogEntry) (text_id : String)
    (fetch : String → List RawPassage)
    (hslug : ∀ slugs, entry.chapters = some slugs → ∀ s ∈ slugs, s ≠ "")
    (hsingle : entry.chapters = none → fetch entry.base_url ≠ [])
    (hmulti : ∀ slugs, entry.chapters = some slugs →
      ∀ s ∈ slugs, fetch (entry.base_url ++ "/" ++ s) ≠ []) :
    processText entry text_id (processText entry text_id none fetch).1 fetch =
      ((processText entry text_id none fetch).1, 0) := by
  cases hch : entry.chapters with
  | none =>
    -- single-page work
    have hf := hsingle hch
    have hrun1 : processText entry text_id none fetch =
        (some ⟨text_id, entry.title, entry.titleEn, sourceAttribution,
          [mkSingleChapter entry (fetch entry.base_url)]⟩, 1) := by
      simp [processText, hch, singlePageComplete, freshWork, hf]
    rw [hrun1]
    have hp : (mkSingleChapter entry (fetch entry.base_url)).passages ≠ [] := by
      simp [mkSingleChapter, hf]
    simp [processText, hch, singlePageComplete, hp]
  | some slugs =>
    have hs := hslug slugs hch
    have hf := hmulti slugs hch
    by_cases hnil : slugs = []
    · subst hnil
      simp [processText, hch, List.enumFrom]
    · -- first run scrapes every page
      have hall : (List.enumFrom 1 slugs).filter (fun p => decide (p.2 ∉ ([] : List String))) =
          List.enumFrom 1 slugs :=
        List.filter_eq_self.mpr (fun p _ => by simp)
      have hne : List.enumFrom 1 slugs ≠ [] := by
        intro h
        apply hnil
        have := congrArg List.length h
        simpa using List.length_eq_zero.mp (by simpa using this)
      have hrun1 : processText entry text_id none fetch =
          (some ⟨text_id, entry.title, entry.titleEn, sourceAttribution,
            sortChapters (scrapeMissing fetch entry.base_url (List.enumFrom 1 slugs))⟩,
           (List.enumFrom 1 slugs).length) := by
        simp only [processText, hch]
        rw [hall, if_neg hne]
        simp [freshWork]
      rw [hrun1]
      -- second run: every slug is already present, so the filter is empty
      have hcover : ∀ p ∈ List.enumFrom 1 slugs,
          p.2 ∈ existingSlugs (scrapeMissing fetch entry.base_url (List.enumFrom 1 slugs)) := by
        apply scrapeMissing_covers
        intro p hp
        have hm := enumFrom_snd_mem 1 slugs p hp
        exact ⟨hs p.2 hm, hf p.2 hm⟩
      have hempty : (List.enumFrom 1 slugs).filter
          (fun p => decide (p.2 ∉ existingSlugs (sortChapters
            (scrapeMissing fetch entry.base_url (List.enumFrom 1 slugs))))) = [] := by
        rw [List.filter_eq_nil_iff]
        intro p hp
        simp only [decide_eq_true_eq, not_not]
        rw [existingSlugs_sortChapters_mem]
        exact hcover p hp
      simp only [processText, hch]
      rw [hempty]
      simp

/-- A concrete two-page catalog entry. -/
def demoEntry : CatalogEntry :=
  ⟨"https://ctext.org/demo", "例", "Demo", some ["a", "b"]⟩

/-- A fetch oracle whose every page parses to one passage. -/
def demoFetch : String → List RawPassage :=
  fun _ => [⟨"子曰", "The Master said"⟩]

/-- Claim C1 witness: for the concrete entry `demoEntry` and oracle
`demoFetch`, re-running the per-work loop on the first run's output performs
zero fetches and returns the disk unchanged. -/
theorem assembler_resume_idempotent_witness :
    processText demoEntry "demo" (processText demoEntry "demo" none demoFetch).1 demoFetch =
      ((processText demoEntry "demo" none demoFetch).1, 0) :=
  assembler_resume_idempotent demoEntry "demo" demoFetch
    (by
      intro slugs hs
      rw [show demoEntry.chapters = some ["a", "b"] from rfl] at hs
      injection hs with h
      subst h
      decide)
    (by
      intro h
      rw [show demoEntry.chapters = some ["a", "b"] from rfl] at h
      cases h)
    (by
      intro slugs hs s hsm
      simp [demoFetch])

end Junzi
